import Mathlib

/-!
# Verification of the Discord-Github PR-lifecycle reconciliation core

Shallow embedding of the repository's PR lifecycle handler
(`pull_request_handler.py`), cleanup job (`cleanup.py`), Map Store
(`pr_map.py`, `stats_map.py`), webhook signature check
(`github_utils.verify_github_signature`) and pagination counting
(`github_utils._get_paginated_count`).

Python dictionaries are modelled as association lists with unique keys
(insertion order preserved, as in CPython); network and Discord side
effects are modelled by explicit environment records, and each embedded
operation additionally returns a trace of the externally visible actions
it performed (messages posted, messages deleted, map loads/saves).
-/

namespace DiscordGithub

/-! ## Python dict model (string-keyed, insertion ordered) -/

/-- The in-memory PR message map: `"{repo}#{number}" → message id`.
Message ids are Python ints, hence `Int`. -/
abbrev PrMap := List (String × Int)

/-- `d.get(k)` / `d[k]`: first (unique) binding of `k`. -/
def dictGet : PrMap → String → Option Int
  | [], _ => none
  | (k', v') :: rest, k => if k' = k then some v' else dictGet rest k

/-- `d[k] = v`: replace the binding in place if present, else append. -/
def dictSet : PrMap → String → Int → PrMap
  | [], k, v => [(k, v)]
  | (k', v') :: rest, k, v =>
    if k' = k then (k, v) :: rest else (k', v') :: dictSet rest k v

/-- `d.pop(k, None)`: the removed value (if any) and the remaining dict. -/
def dictPop : PrMap → String → Option Int × PrMap
  | [], _ => (none, [])
  | (k', v') :: rest, k =>
    if k' = k then (some v', rest)
    else
      let r := dictPop rest k
      (r.1, (k', v') :: r.2)

/-- Keys of a map. -/
def dictKeys (m : PrMap) : List String := m.map Prod.fst

theorem dictGet_set_self (m : PrMap) (k : String) (v : Int) :
    dictGet (dictSet m k v) k = some v := by
  induction m with
  | nil => simp [dictSet, dictGet]
  | cons hd tl ih =>
    by_cases h : hd.1 = k
    · simp [dictSet, dictGet, h]
    · simp [dictSet, dictGet, h, ih]

theorem dictPop_fst (m : PrMap) (k : String) :
    (dictPop m k).1 = dictGet m k := by
  induction m with
  | nil => simp [dictPop, dictGet]
  | cons hd tl ih =>
    by_cases h : hd.1 = k
    · simp [dictPop, dictGet, h]
    · simp [dictPop, dictGet, h, ih]

theorem dictPop_sublist (m : PrMap) (k : String) :
    (dictPop m k).2.Sublist m := by
  induction m with
  | nil => simp [dictPop]
  | cons hd tl ih =>
    by_cases h : hd.1 = k
    · simp only [dictPop, h, if_true]
      exact List.sublist_cons_self hd tl
    · simpa [dictPop, h] using ih.cons₂ hd

theorem dictKeys_pop_sublist (m : PrMap) (k : String) :
    (dictKeys (dictPop m k).2).Sublist (dictKeys m) :=
  (dictPop_sublist m k).map Prod.fst

theorem dictGet_eq_none_of_not_mem (m : PrMap) (k : String)
    (h : k ∉ dictKeys m) : dictGet m k = none := by
  induction m with
  | nil => simp [dictGet]
  | cons hd tl ih =>
    simp only [dictKeys, List.map_cons, List.mem_cons] at h
    push_neg at h
    simp [dictGet, Ne.symm h.1, ih (by simpa [dictKeys] using h.2)]

theorem not_mem_keys_dictPop (m : PrMap) (k : String)
    (hnd : (dictKeys m).Nodup) : k ∉ dictKeys (dictPop m k).2 := by
  induction m with
  | nil => simp [dictPop, dictKeys]
  | cons hd tl ih =>
    simp only [dictKeys, List.map_cons, List.nodup_cons] at hnd
    by_cases h : hd.1 = k
    · subst h
      simpa [dictPop, dictKeys] using hnd.1
    · intro hmem
      simp only [dictPop, h, if_false, dictKeys, List.map_cons, List.mem_cons] at hmem
      rcases hmem with h1 | h2
      · exact h (h1.symm)
      · exact ih hnd.2 h2

theorem dictGet_pop_self (m : PrMap) (k : String)
    (hnd : (dictKeys m).Nodup) : dictGet (dictPop m k).2 k = none :=
  dictGet_eq_none_of_not_mem _ _ (not_mem_keys_dictPop m k hnd)

theorem dictKeys_set_of_mem (m : PrMap) (k : String) (v : Int)
    (h : k ∈ dictKeys m) : dictKeys (dictSet m k v) = dictKeys m := by
  induction m with
  | nil => simp [dictKeys] at h
  | cons hd tl ih =>
    by_cases h' : hd.1 = k
    · simp [dictSet, dictKeys, h']
    · simp only [dictKeys, List.map_cons, List.mem_cons] at h
      rcases h with h1 | h2
      · exact absurd h1.symm h'
      · simp only [dictSet, h', if_false, dictKeys, List.map_cons]
        simpa [dictKeys] using ih (by simpa [dictKeys] using h2)

theorem dictKeys_set_of_not_mem (m : PrMap) (k : String) (v : Int)
    (h : k ∉ dictKeys m) : dictKeys (dictSet m k v) = dictKeys m ++ [k] := by
  induction m with
  | nil => simp [dictSet, dictKeys]
  | cons hd tl ih =>
    simp only [dictKeys, List.map_cons, List.mem_cons] at h
    push_neg at h
    simp only [dictSet, Ne.symm h.1, if_false, dictKeys, List.map_cons]
    simpa [dictKeys] using ih (by simpa [dictKeys] using h.2)

theorem dictKeys_set_nodup (m : PrMap) (k : String) (v : Int)
    (hnd : (dictKeys m).Nodup) : (dictKeys (dictSet m k v)).Nodup := by
  by_cases hmem : k ∈ dictKeys m
  · rw [dictKeys_set_of_mem m k v hmem]; exact hnd
  · rw [dictKeys_set_of_not_mem m k v hmem]
    simpa [List.nodup_append] using ⟨hnd, fun h => hmem h⟩

theorem dictKeys_pop_nodup (m : PrMap) (k : String)
    (hnd : (dictKeys m).Nodup) : (dictKeys (dictPop m k).2).Nodup :=
  (dictKeys_pop_sublist m k).nodup hnd

/-! ## Configuration and payload model

`config.settings` supplies the destination channel ids; a
`pull_request` webhook payload is reduced to the fields the handler
reads: `payload.get("action")` (a missing action behaves like `""` in
every comparison the handler performs), `pull_request.get("merged")`
truthiness, `repository.get("full_name")` and
`pull_request.get("number")` (`none` = key missing / `None`). -/

structure Settings where
  channel_pull_requests : Nat
  channel_code_merges : Nat

structure Payload where
  action : String
  merged : Bool
  repo : Option String
  number : Option Int

/-- Python `f"{x}"` rendering of an optional string (`None` prints as `"None"`). -/
def pyStrOfOptStr : Option String → String
  | some s => s
  | none => "None"

/-- Python `f"{x}"` rendering of an optional int. -/
def pyStrOfOptInt : Option Int → String
  | some n => toString n
  | none => "None"

/-- `pull_request_handler._get_pr_key`: `f"{repo}#{number}"`. -/
def _get_pr_key (p : Payload) : String :=
  pyStrOfOptStr p.repo ++ "#" ++ pyStrOfOptInt p.number

/-! ## Effect model for the handler

`main.send_to_discord` returns the posted message (carrying its id),
or `None` when nothing could be posted, or raises; `
discord_bot.DiscordBot.delete_message_from_channel` catches every
exception internally and returns a `bool`, so a delete call never
raises into the handler. The embeds built by
`formatters.format_pull_request_event` / `format_merge_event` are
cosmetic; only which formatter produced the posted notification is
tracked. -/

inductive EmbedKind
  | prEvent
  | mergeEvent
  | noEmbed
  deriving DecidableEq, Repr

def format_pull_request_event (_p : Payload) : EmbedKind := .prEvent

def format_merge_event (_p : Payload) : EmbedKind := .mergeEvent

inductive SendOutcome
  | ok (id : Int)
  | noneResult
  | raises
  deriving DecidableEq, Repr

/-- The message value returned by a completed `send_to_discord` call. -/
def SendOutcome.toOption : SendOutcome → Option Int
  | .ok i => some i
  | .noneResult => none
  | .raises => none

structure Env where
  send : SendOutcome
  deleteOk : Bool

/-- Externally visible actions of one handler invocation. -/
inductive Act
  | send (channel : Nat) (embed : EmbedKind) (result : Option Int)
  | deleteMsg (channel : Nat) (messageId : Int) (ok : Bool)
  | loadMap
  | saveMap (m : PrMap)
  deriving DecidableEq, Repr

structure ProcResult where
  ok : Bool
  map : PrMap
  trace : List Act
  deriving DecidableEq, Repr

/-- Body of `pull_request_handler._process_pull_request_event`
(src/pull_request_handler.py lines 222-257) after a completed
`send_to_discord` call returning `message`; returns the persisted map
and the action trace.  Note the closed branch saves the popped map
only when the popped `message_id` is truthy (non-`None` and non-zero),
mirroring `if message_id:`. -/
def _process_core (st : Settings) (p : Payload) (message : Option Int)
    (deleteOk : Bool) (m : PrMap) : PrMap × List Act :=
  let embed := if p.action = "closed" ∧ p.merged = true then
      format_merge_event p else format_pull_request_event p
  let channel_id := if p.action = "closed" ∧ p.merged = true then
      st.channel_code_merges else st.channel_pull_requests
  let sendAct := Act.send channel_id embed message
  let pr_key := _get_pr_key p
  if p.action = "opened" ∨ p.action = "ready_for_review" then
    match message with
    | some mid =>
      let m2 := dictSet m pr_key mid
      (m2, [sendAct, .loadMap, .saveMap m2])
    | none => (m, [sendAct, .loadMap])
  else if p.action = "closed" then
    let popped := dictPop m pr_key
    match popped.1 with
    | some mid =>
      if mid ≠ 0 then
        (popped.2, [sendAct, .loadMap,
          .deleteMsg st.channel_pull_requests mid deleteOk,
          .saveMap popped.2])
      else
        -- `message_id` is falsy: popped only in memory, never saved
        (m, [sendAct, .loadMap])
    | none => (m, [sendAct, .loadMap])
  else
    (m, [sendAct, .loadMap])

/-- `_process_pull_request_event` itself: the whole body is wrapped in
`try/except`, returning `False` (with no state change) when the send
raises; `delete_message_from_channel` never raises. -/
def _process_pull_request_event (st : Settings) (env : Env) (p : Payload)
    (m : PrMap) : ProcResult :=
  match env.send with
  | .raises => ⟨false, m, []⟩
  | s =>
    let r := _process_core st p s.toOption env.deleteOk m
    ⟨true, r.1, r.2⟩

/-! ## Retry wrapper

`handle_pull_request_event_with_retry`
(src/pull_request_handler.py lines 260-274): up to `_MAX_RETRIES`
attempts; a failed attempt logs a warning, sleeps `delay` seconds and
doubles the delay.  `envs i` is the environment seen by attempt `i`
(0-based).  The wrapper itself never raises: `_process_pull_request_event`
converts every exception into `False`. -/

def _MAX_RETRIES : Nat := 3

def _INITIAL_DELAY : Nat := 2

structure RetryResult where
  ok : Bool
  map : PrMap
  attempts : Nat
  sleeps : List Nat
  deriving DecidableEq, Repr

/-- The `for attempt in range(1, _MAX_RETRIES + 1)` loop; `i` counts
attempts already made, `remaining` the attempts left. -/
def retry_loop (st : Settings) (p : Payload) (envs : Nat → Env) :
    Nat → Nat → Nat → PrMap → RetryResult
  | i, 0, _, m => ⟨false, m, i, []⟩
  | i, r + 1, delay, m =>
    let res := _process_pull_request_event st (envs i) p m
    if res.ok then ⟨true, res.map, i + 1, []⟩
    else
      let rest := retry_loop st p envs (i + 1) r (delay * 2) res.map
      ⟨rest.ok, rest.map, rest.attempts, delay :: rest.sleeps⟩

def handle_pull_request_event_with_retry (st : Settings) (p : Payload)
    (envs : Nat → Env) (m : PrMap) : RetryResult :=
  retry_loop st p envs 0 _MAX_RETRIES _INITIAL_DELAY m

/-! ## Payload-validation revision

The revision of `handle_pull_request_event_with_retry` at
src/pull_request_handler.py lines 314-363 validates the payload before
touching anything: `if not repo or "number" not in pr: return False`
(an equivalent guard appears at lines 60-68).  Only then does it post,
load and save. -/

namespace HandlerV314

def handle_pull_request_event_with_retry (st : Settings) (env : Env)
    (p : Payload) (m : PrMap) : Bool × PrMap × List Act :=
  -- `if not repo or "number" not in pr: logger.error(...); return False`
  if p.repo = none ∨ p.repo = some "" ∨ p.number = none then
    (false, m, [])
  else
    let pr_key := _get_pr_key p
    if p.action = "opened" then
      match env.send with
      | .raises => (false, m, [])
      | s =>
        let sendAct := Act.send st.channel_pull_requests
          (format_pull_request_event p) s.toOption
        match s.toOption with
        | some mid =>
          let m2 := dictSet m pr_key mid
          (true, m2, [sendAct, .loadMap, .saveMap m2])
        | none => (true, m, [sendAct])
    else if p.action = "closed" then
      let popped := dictPop m pr_key
      match popped.1 with
      | some mid =>
        if mid ≠ 0 then
          match env.send with
          | .raises =>
            (false, popped.2, [.loadMap,
              .deleteMsg st.channel_pull_requests mid env.deleteOk,
              .saveMap popped.2])
          | s =>
            (true, popped.2, [.loadMap,
              .deleteMsg st.channel_pull_requests mid env.deleteOk,
              .saveMap popped.2,
              .send st.channel_code_merges .noEmbed s.toOption])
        else
          match env.send with
          | .raises => (false, m, [.loadMap])
          | s => (true, m, [.loadMap, .send st.channel_code_merges .noEmbed s.toOption])
      | none =>
        match env.send with
        | .raises => (false, m, [.loadMap])
        | s => (true, m, [.loadMap, .send st.channel_code_merges .noEmbed s.toOption])
    else
      (true, m, [])

end HandlerV314

/-! ## Basic facts about the handler -/

theorem proc_raises (st : Settings) (env : Env) (p : Payload) (m : PrMap)
    (h : env.send = .raises) :
    _process_pull_request_event st env p m = ⟨false, m, []⟩ := by
  simp [_process_pull_request_event, h]

theorem proc_ok_iff (st : Settings) (env : Env) (p : Payload) (m : PrMap) :
    (_process_pull_request_event st env p m).ok = true ↔ env.send ≠ .raises := by
  cases h : env.send <;> simp [_process_pull_request_event, h]

theorem proc_fail (st : Settings) (env : Env) (p : Payload) (m : PrMap)
    (h : (_process_pull_request_event st env p m).ok = false) :
    _process_pull_request_event st env p m = ⟨false, m, []⟩ := by
  cases he : env.send
  · simp [_process_pull_request_event, he] at h
  · simp [_process_pull_request_event, he] at h
  · exact proc_raises st env p m he

theorem retry_loop_succ (st : Settings) (p : Payload) (envs : Nat → Env)
    (i r delay : Nat) (m : PrMap) :
    retry_loop st p envs i (r + 1) delay m =
      (let res := _process_pull_request_event st (envs i) p m
      if res.ok then ⟨true, res.map, i + 1, []⟩
      else
        let rest := retry_loop st p envs (i + 1) r (delay * 2) res.map
        ⟨rest.ok, rest.map, rest.attempts, delay :: rest.sleeps⟩) := rfl

theorem retry_loop_zero (st : Settings) (p : Payload) (envs : Nat → Env)
    (i delay : Nat) (m : PrMap) :
    retry_loop st p envs i 0 delay m = ⟨false, m, i, []⟩ := rfl

/-- Closed form of the 3-attempt retry loop.  A failed attempt leaves the
persisted map untouched (`proc_fail`), so every attempt runs against `m`. -/
theorem retry_eval (st : Settings) (p : Payload) (envs : Nat → Env) (m : PrMap) :
    handle_pull_request_event_with_retry st p envs m =
      (let r0 := _process_pull_request_event st (envs 0) p m
      if r0.ok then ⟨true, r0.map, 1, []⟩
      else
        let r1 := _process_pull_request_event st (envs 1) p m
        if r1.ok then ⟨true, r1.map, 2, [2]⟩
        else
          let r2 := _process_pull_request_event st (envs 2) p m
          if r2.ok then ⟨true, r2.map, 3, [2, 4]⟩
          else ⟨false, m, 3, [2, 4, 8]⟩) := by
  have e0 : handle_pull_request_event_with_retry st p envs m
      = retry_loop st p envs 0 (2 + 1) 2 m := rfl
  rw [e0, retry_loop_succ]
  by_cases h0 : (_process_pull_request_event st (envs 0) p m).ok
  · simp only [h0, if_true]
  · have hf0 := proc_fail st (envs 0) p m (by simpa using h0)
    simp only [h0, if_false, hf0]
    rw [show (2 : Nat) = 1 + 1 from rfl, retry_loop_succ]
    by_cases h1 : (_process_pull_request_event st (envs 1) p m).ok
    · simp [h1]
    · have hf1 := proc_fail st (envs 1) p m (by simpa using h1)
      simp only [h1, if_false, hf1]
      rw [show (1 : Nat) = 0 + 1 from rfl, retry_loop_succ]
      by_cases h2 : (_process_pull_request_event st (envs 2) p m).ok
      · simp [h2]
      · have hf2 := proc_fail st (envs 2) p m (by simpa using h2)
        simp [h2, hf2, retry_loop_zero]

/-- The `pull_request` payload of an `action=opened` event. -/
def openedPayload (repo : String) (number : Int) : Payload :=
  ⟨"opened", false, some repo, some number⟩

/-- The `pull_request` payload of an `action=closed, merged=true` event. -/
def mergedClosePayload (repo : String) (number : Int) : Payload :=
  ⟨"closed", true, some repo, some number⟩

theorem proc_opened_ok (st : Settings) (envO : Env) (repo : String)
    (number mid : Int) (m : PrMap) (hsendO : envO.send = .ok mid) :
    _process_pull_request_event st envO (openedPayload repo number) m =
      ⟨true, dictSet m (repo ++ "#" ++ toString number) mid,
        [Act.send st.channel_pull_requests .prEvent (some mid), .loadMap,
         .saveMap (dictSet m (repo ++ "#" ++ toString number) mid)]⟩ := by
  simp [_process_pull_request_event, hsendO, _process_core, SendOutcome.toOption,
    openedPayload, _get_pr_key, pyStrOfOptStr, pyStrOfOptInt,
    format_pull_request_event, format_merge_event]

theorem proc_merged_close (st : Settings) (envC : Env) (repo : String)
    (number mid mid2 : Int) (m' : PrMap) (hsendC : envC.send = .ok mid2)
    (hpop : (dictPop m' (repo ++ "#" ++ toString number)).1 = some mid)
    (hmid : mid ≠ 0) :
    _process_pull_request_event st envC (mergedClosePayload repo number) m' =
      ⟨true, (dictPop m' (repo ++ "#" ++ toString number)).2,
        [Act.send st.channel_code_merges .mergeEvent (some mid2), .loadMap,
         .deleteMsg st.channel_pull_requests mid envC.deleteOk,
         .saveMap (dictPop m' (repo ++ "#" ++ toString number)).2]⟩ := by
  simp [_process_pull_request_event, hsendC, _process_core, SendOutcome.toOption,
    mergedClosePayload, _get_pr_key, pyStrOfOptStr, pyStrOfOptInt,
    format_pull_request_event, format_merge_event, hpop, hmid]

/-- **C1**: an `action=opened` event whose notification post succeeds
upserts `"{repo}#{number}" ↦ message id` into the Map Store (and leaves
the store untouched when posting fails); a subsequent
`action=closed, merged=true` event for the same PR posts a merge
notification to the merges channel, deletes the originally posted
message, removes the entry and saves, so after the fully processed
opened-then-closed sequence the Map Store holds no entry for the key. -/
theorem pr_open_then_merge_lifecycle
    (st : Settings) (repo : String) (number : Int) (m : PrMap)
    (envO envC envF : Env) (mid mid2 : Int)
    (hnd : (dictKeys m).Nodup)
    (hsendO : envO.send = .ok mid) (hmid : mid ≠ 0)
    (hsendC : envC.send = .ok mid2)
    (hF : envF.send.toOption = none) :
    (_process_pull_request_event st envO (openedPayload repo number) m).ok = true ∧
    dictGet (_process_pull_request_event st envO (openedPayload repo number) m).map
      (repo ++ "#" ++ toString number) = some mid ∧
    Act.saveMap (_process_pull_request_event st envO (openedPayload repo number) m).map
      ∈ (_process_pull_request_event st envO (openedPayload repo number) m).trace ∧
    (_process_pull_request_event st envF (openedPayload repo number) m).map = m ∧
    (_process_pull_request_event st envC (mergedClosePayload repo number)
      (_process_pull_request_event st envO (openedPayload repo number) m).map).ok = true ∧
    Act.send st.channel_code_merges .mergeEvent (some mid2)
      ∈ (_process_pull_request_event st envC (mergedClosePayload repo number)
          (_process_pull_request_event st envO (openedPayload repo number) m).map).trace ∧
    Act.deleteMsg st.channel_pull_requests mid envC.deleteOk
      ∈ (_process_pull_request_event st envC (mergedClosePayload repo number)
          (_process_pull_request_event st envO (openedPayload repo number) m).map).trace ∧
    Act.saveMap (_process_pull_request_event st envC (mergedClosePayload repo number)
          (_process_pull_request_event st envO (openedPayload repo number) m).map).map
      ∈ (_process_pull_request_event st envC (mergedClosePayload repo number)
          (_process_pull_request_event st envO (openedPayload repo number) m).map).trace ∧
    dictGet (_process_pull_request_event st envC (mergedClosePayload repo number)
      (_process_pull_request_event st envO (openedPayload repo number) m).map).map
      (repo ++ "#" ++ toString number) = none := by
  have hr1 := proc_opened_ok st envO repo number mid m hsendO
  have hpop : (dictPop (dictSet m (repo ++ "#" ++ toString number) mid)
      (repo ++ "#" ++ toString number)).1 = some mid := by
    rw [dictPop_fst, dictGet_set_self]
  have hr2 := proc_merged_close st envC repo number mid mid2
    (dictSet m (repo ++ "#" ++ toString number) mid) hsendC hpop hmid
  have hFmap : (_process_pull_request_event st envF (openedPayload repo number) m).map = m := by
    cases he : envF.send with
    | ok i => rw [he] at hF; simp [SendOutcome.toOption] at hF
    | noneResult =>
      simp [_process_pull_request_event, he, _process_core, SendOutcome.toOption,
        openedPayload]
    | raises => simp [_process_pull_request_event, he]
  have hnd' : (dictKeys (dictSet m (repo ++ "#" ++ toString number) mid)).Nodup :=
    dictKeys_set_nodup m _ mid hnd
  refine ⟨by rw [hr1], by rw [hr1]; exact dictGet_set_self m _ mid,
    by rw [hr1]; simp, hFmap, ?_, ?_, ?_, ?_, ?_⟩
  · rw [hr1, hr2]
  · rw [hr1, hr2]; simp
  · rw [hr1, hr2]; simp
  · rw [hr1, hr2]; simp
  · rw [hr1, hr2]
    exact dictGet_pop_self _ _ hnd'

/-- Witness for `pr_open_then_merge_lifecycle` at
`repo = "acme/widgets"`, `number = 7`, an empty initial store and
message ids 100 and 200. -/
theorem pr_open_then_merge_lifecycle_witness :
    (dictKeys ([] : PrMap)).Nodup ∧
    (Env.mk (.ok 100) true).send = .ok 100 ∧ (100 : Int) ≠ 0 ∧
    (Env.mk (.ok 200) true).send = .ok 200 ∧
    (Env.mk .noneResult true).send.toOption = none ∧
    dictGet (_process_pull_request_event ⟨1, 2⟩ ⟨.ok 100, true⟩
      (openedPayload "acme/widgets" 7) []).map ("acme/widgets" ++ "#" ++ toString (7 : Int))
      = some 100 ∧
    dictGet (_process_pull_request_event ⟨1, 2⟩ ⟨.ok 200, true⟩
      (mergedClosePayload "acme/widgets" 7)
      (_process_pull_request_event ⟨1, 2⟩ ⟨.ok 100, true⟩
        (openedPayload "acme/widgets" 7) []).map).map
      ("acme/widgets" ++ "#" ++ toString (7 : Int)) = none := by
  have h := pr_open_then_merge_lifecycle ⟨1, 2⟩ "acme/widgets" 7 []
    ⟨.ok 100, true⟩ ⟨.ok 200, true⟩ ⟨.noneResult, true⟩ 100 200
    (by simp [dictKeys]) rfl (by decide) rfl rfl
  exact ⟨by simp [dictKeys], rfl, by decide, rfl, rfl, h.2.1, h.2.2.2.2.2.2.2.2⟩

/-- **C2**: for a closed `pull_request` event whose Map Store entry is
present (a real Discord message id, hence non-zero), the entry is
removed and saved even when the Discord delete fails
(`delete_message_from_channel` catches its own errors and returns
`False`, so the handler continues and persists the popped map). -/
theorem closed_event_drops_entry_despite_delete_failure
    (st : Settings) (env : Env) (p : Payload) (m : PrMap) (mid : Int)
    (hnd : (dictKeys m).Nodup)
    (hact : p.action = "closed")
    (hentry : dictGet m (_get_pr_key p) = some mid) (hmid : mid ≠ 0)
    (hdel : env.deleteOk = false)
    (hsend : env.send ≠ .raises) :
    (_process_pull_request_event st env p m).ok = true ∧
    dictGet (_process_pull_request_event st env p m).map (_get_pr_key p) = none ∧
    Act.deleteMsg st.channel_pull_requests mid false
      ∈ (_process_pull_request_event st env p m).trace ∧
    Act.saveMap (_process_pull_request_event st env p m).map
      ∈ (_process_pull_request_event st env p m).trace := by
  have hpop : (dictPop m (_get_pr_key p)).1 = some mid := by
    rw [dictPop_fst]; exact hentry
  have hproc : (_process_pull_request_event st env p m).map = (dictPop m (_get_pr_key p)).2 ∧
      (_process_pull_request_event st env p m).ok = true ∧
      Act.deleteMsg st.channel_pull_requests mid env.deleteOk
        ∈ (_process_pull_request_event st env p m).trace ∧
      Act.saveMap (dictPop m (_get_pr_key p)).2
        ∈ (_process_pull_request_event st env p m).trace := by
    cases he : env.send with
    | raises => exact absurd he hsend
    | ok i =>
      simp [_process_pull_request_event, he, _process_core, SendOutcome.toOption,
        hact, hpop, hmid]
    | noneResult =>
      simp [_process_pull_request_event, he, _process_core, SendOutcome.toOption,
        hact, hpop, hmid]
  refine ⟨hproc.2.1, ?_, ?_, ?_⟩
  · rw [hproc.1]
    exact dictGet_pop_self _ _ hnd
  · rw [← hdel]; exact hproc.2.2.1
  · rw [hproc.1]; exact hproc.2.2.2

/-- Witness for `closed_event_drops_entry_despite_delete_failure` at a
store holding `"acme/widgets#7" ↦ 100` and a failing delete. -/
theorem closed_event_drops_entry_witness :
    (dictKeys [("acme/widgets#7", (100 : Int))]).Nodup ∧
    (mergedClosePayload "acme/widgets" 7).action = "closed" ∧
    dictGet [("acme/widgets#7", (100 : Int))]
      (_get_pr_key (mergedClosePayload "acme/widgets" 7)) = some 100 ∧
    (100 : Int) ≠ 0 ∧
    (Env.mk (.ok 200) false).deleteOk = false ∧
    (Env.mk (.ok 200) false).send ≠ .raises ∧
    dictGet (_process_pull_request_event ⟨1, 2⟩ ⟨.ok 200, false⟩
      (mergedClosePayload "acme/widgets" 7) [("acme/widgets#7", (100 : Int))]).map
      (_get_pr_key (mergedClosePayload "acme/widgets" 7)) = none := by
  have h := closed_event_drops_entry_despite_delete_failure ⟨1, 2⟩
    ⟨.ok 200, false⟩ (mergedClosePayload "acme/widgets" 7)
    [("acme/widgets#7", (100 : Int))] 100
    (by simp [dictKeys]) rfl (by decide) (by decide) rfl (by decide)
  exact ⟨by simp [dictKeys], rfl, by decide, by decide, rfl, by decide, h.2.1⟩

/-- **C3**: `handle_pull_request_event_with_retry` makes at most 3
attempts, succeeds as soon as one attempt succeeds, sleeps with a
doubling backoff (2s, 4s, 8s) after each failed attempt, and after a
permanent failure returns `false` (it is a total function — every
exception is converted to `False` inside `_process_pull_request_event`,
so nothing propagates to the caller). -/
theorem pr_retry_policy (st : Settings) (p : Payload) (envs : Nat → Env)
    (m : PrMap) :
    (handle_pull_request_event_with_retry st p envs m).attempts ≤ 3 ∧
    ((handle_pull_request_event_with_retry st p envs m).ok = true ↔
      ∃ i < 3, (_process_pull_request_event st (envs i) p m).ok = true) ∧
    ((handle_pull_request_event_with_retry st p envs m).ok = false →
      (handle_pull_request_event_with_retry st p envs m).attempts = 3 ∧
      (handle_pull_request_event_with_retry st p envs m).map = m ∧
      (handle_pull_request_event_with_retry st p envs m).sleeps = [2, 4, 8]) ∧
    ((handle_pull_request_event_with_retry st p envs m).ok = true →
      (handle_pull_request_event_with_retry st p envs m).sleeps =
        List.map (fun j => 2 * 2 ^ j)
          (List.range ((handle_pull_request_event_with_retry st p envs m).attempts - 1))) := by
  by_cases h0 : (_process_pull_request_event st (envs 0) p m).ok
  · have e : handle_pull_request_event_with_retry st p envs m =
        ⟨true, (_process_pull_request_event st (envs 0) p m).map, 1, []⟩ := by
      rw [retry_eval]; simp [h0]
    rw [e]
    exact ⟨by simp, ⟨fun _ => ⟨0, by norm_num, h0⟩, fun _ => rfl⟩,
      fun hcon => Bool.noConfusion hcon, fun _ => rfl⟩
  · by_cases h1 : (_process_pull_request_event st (envs 1) p m).ok
    · have e : handle_pull_request_event_with_retry st p envs m =
          ⟨true, (_process_pull_request_event st (envs 1) p m).map, 2, [2]⟩ := by
        rw [retry_eval]; simp [h0, h1]
      rw [e]
      exact ⟨by simp, ⟨fun _ => ⟨1, by norm_num, h1⟩, fun _ => rfl⟩,
        fun hcon => Bool.noConfusion hcon, fun _ => by simp [List.range_succ]⟩
    · by_cases h2 : (_process_pull_request_event st (envs 2) p m).ok
      · have e : handle_pull_request_event_with_retry st p envs m =
            ⟨true, (_process_pull_request_event st (envs 2) p m).map, 3, [2, 4]⟩ := by
          rw [retry_eval]; simp [h0, h1, h2]
        rw [e]
        exact ⟨by simp, ⟨fun _ => ⟨2, by norm_num, h2⟩, fun _ => rfl⟩,
          fun hcon => Bool.noConfusion hcon, fun _ => by simp [List.range_succ]⟩
      · have e : handle_pull_request_event_with_retry st p envs m =
            ⟨false, m, 3, [2, 4, 8]⟩ := by
          rw [retry_eval]; simp [h0, h1, h2]
        rw [e]
        refine ⟨by simp, ⟨fun hcon => Bool.noConfusion hcon, ?_⟩,
          fun _ => ⟨rfl, rfl, rfl⟩, fun hcon => Bool.noConfusion hcon⟩
        rintro ⟨i, hi, hok⟩
        interval_cases i
        · exact absurd hok h0
        · exact absurd hok h1
        · exact absurd hok h2

/-- **C10**: a payload with a missing `repository.full_name` or a
missing `pull_request.number` makes `handle_pull_request_event_with_retry`
(the validating revision, src/pull_request_handler.py lines 314-321)
return `False` with no Discord call and no Map Store access: the result
is exactly `(false, m, [])` — unchanged map, empty action trace. -/
theorem invalid_payload_returns_false
    (st : Settings) (env : Env) (p : Payload) (m : PrMap)
    (h : p.repo = none ∨ p.number = none) :
    HandlerV314.handle_pull_request_event_with_retry st env p m = (false, m, []) := by
  rcases h with h | h <;>
    simp [HandlerV314.handle_pull_request_event_with_retry, h]

/-! ## Cleanup / reconciliation job

Embedding of `cleanup.cleanup_pr_messages` (src/cleanup.py lines
42-76): for each `(pr_key, message_id)` snapshot entry, split the key
on `"#"` (a key without `"#"` raises `ValueError` out of the whole
job — modelled as `none`), fetch the PR from GitHub (`lookup`), and if
the fetch succeeded with HTTP 200 and `data.get("state") != "open"`,
call the Discord delete (whose `bool` result only drives the `cleaned`
counter) and unconditionally pop the key; a non-200 status logs a
warning and keeps the key; an exception during fetch logs an error and
keeps the key.  The map is saved exactly once, after the loop. -/

inductive LookupRes
  | resp (status : Nat) (state : Option String)
  | raises
  deriving DecidableEq, Repr

structure CleanupEnv where
  lookup : String → LookupRes
  delete : String → Int → Bool

inductive CAct
  | fetchWarn (key : String) (status : Nat)
  | errLog (key : String)
  | delCall (key : String) (messageId : Int) (ok : Bool)
  | save (m : PrMap)
  deriving DecidableEq, Repr

def splitHashAux : List Char → List Char → Option (String × String)
  | [], _ => none
  | c :: rest, acc =>
    if c = '#' then some (String.mk acc.reverse, String.mk rest)
    else splitHashAux rest (c :: acc)

/-- `repo, number_str = pr_key.split("#", 1)`; `none` models the
`ValueError` raised when the key contains no `"#"`. -/
def splitHash1 (s : String) : Option (String × String) :=
  splitHashAux s.data []

structure CleanupOut where
  map : PrMap
  trace : List CAct
  cleaned : Nat
  deriving DecidableEq, Repr

/-- The `for pr_key, message_id in list(pr_map.items())` loop; the
first argument is the iteration snapshot, the second the live map. -/
def cleanup_loop (env : CleanupEnv) : List (String × Int) → PrMap → Option CleanupOut
  | [], m => some ⟨m, [], 0⟩
  | (k, mid) :: rest, m =>
    match splitHash1 k with
    | none => none
    | some _ =>
      match env.lookup k with
      | .raises =>
        match cleanup_loop env rest m with
        | none => none
        | some r => some ⟨r.map, .errLog k :: r.trace, r.cleaned⟩
      | .resp status state =>
        if status = 200 then
          if state = some "open" then
            cleanup_loop env rest m
          else
            let ok := env.delete k mid
            match cleanup_loop env rest (dictPop m k).2 with
            | none => none
            | some r =>
              some ⟨r.map, .delCall k mid ok :: r.trace,
                (if ok then 1 else 0) + r.cleaned⟩
        else
          match cleanup_loop env rest m with
          | none => none
          | some r => some ⟨r.map, .fetchWarn k status :: r.trace, r.cleaned⟩

/-- `cleanup_pr_messages`: early-returns on an empty map (without
saving), otherwise sweeps the snapshot and saves the updated map once
at the end. -/
def cleanup_pr_messages (env : CleanupEnv) (m : PrMap) : Option CleanupOut :=
  if m = [] then some ⟨m, [], 0⟩
  else
    match cleanup_loop env m m with
    | none => none
    | some r => some ⟨r.map, r.trace ++ [CAct.save r.map], r.cleaned⟩

/-- A key the sweep does not remove: the GitHub fetch raised, returned
non-200, or reported the PR still open. -/
def keeps (env : CleanupEnv) (k : String) : Prop :=
  match env.lookup k with
  | .raises => True
  | .resp status state => status ≠ 200 ∨ state = some "open"

theorem cleanup_loop_sublist (env : CleanupEnv) (l : List (String × Int)) :
    ∀ m r, cleanup_loop env l m = some r → r.map.Sublist m := by
  induction l with
  | nil =>
    intro m r h
    simp only [cleanup_loop, Option.some.injEq] at h
    rw [← h]
  | cons hd rest ih =>
    intro m r h
    obtain ⟨k, mid⟩ := hd
    simp only [cleanup_loop] at h
    cases hsp : splitHash1 k with
    | none => rw [hsp] at h; exact absurd h (by simp)
    | some pr =>
      rw [hsp] at h
      dsimp only at h
      cases hlk : env.lookup k with
      | raises =>
        rw [hlk] at h
        dsimp only at h
        cases hrec : cleanup_loop env rest m with
        | none => rw [hrec] at h; exact absurd h (by simp)
        | some r' =>
          rw [hrec] at h
          simp only [Option.some.injEq] at h
          rw [← h]
          exact ih m r' hrec
      | resp status state =>
        rw [hlk] at h
        dsimp only at h
        by_cases h200 : status = 200
        · rw [if_pos h200] at h
          by_cases hopen : state = some "open"
          · rw [if_pos hopen] at h
            exact ih m r h
          · rw [if_neg hopen] at h
            cases hrec : cleanup_loop env rest (dictPop m k).2 with
            | none => rw [hrec] at h; exact absurd h (by simp)
            | some r' =>
              rw [hrec] at h
              simp only [Option.some.injEq] at h
              rw [← h]
              exact (ih _ r' hrec).trans (dictPop_sublist m k)
        · rw [if_neg h200] at h
          cases hrec : cleanup_loop env rest m with
          | none => rw [hrec] at h; exact absurd h (by simp)
          | some r' =>
            rw [hrec] at h
            simp only [Option.some.injEq] at h
            rw [← h]
            exact ih m r' hrec

theorem cleanup_loop_hash (env : CleanupEnv) (l : List (String × Int)) :
    ∀ m r, cleanup_loop env l m = some r →
      ∀ kv ∈ l, splitHash1 kv.1 ≠ none := by
  induction l with
  | nil => intro m r _ kv hkv; simp at hkv
  | cons hd rest ih =>
    intro m r h kv hkv
    obtain ⟨k, mid⟩ := hd
    simp only [cleanup_loop] at h
    cases hsp : splitHash1 k with
    | none => rw [hsp] at h; exact absurd h (by simp)
    | some pr =>
      rw [hsp] at h
      rcases List.mem_cons.mp hkv with hkv | hkv
      · rw [hkv]; simp [hsp]
      · cases hlk : env.lookup k with
        | raises =>
          rw [hlk] at h
          dsimp only at h
          cases hrec : cleanup_loop env rest m with
          | none => rw [hrec] at h; exact absurd h (by simp)
          | some r' => exact ih m r' hrec kv hkv
        | resp status state =>
          rw [hlk] at h
          dsimp only at h
          by_cases h200 : status = 200
          · rw [if_pos h200] at h
            by_cases hopen : state = some "open"
            · rw [if_pos hopen] at h
              exact ih m r h kv hkv
            · rw [if_neg hopen] at h
              cases hrec : cleanup_loop env rest (dictPop m k).2 with
              | none => rw [hrec] at h; exact absurd h (by simp)
              | some r' => exact ih _ r' hrec kv hkv
          · rw [if_neg h200] at h
            cases hrec : cleanup_loop env rest m with
            | none => rw [hrec] at h; exact absurd h (by simp)
            | some r' => exact ih m r' hrec kv hkv

theorem cleanup_loop_removes (env : CleanupEnv) (l : List (String × Int)) :
    ∀ m r, (dictKeys m).Nodup → cleanup_loop env l m = some r →
      ∀ kv ∈ l, ¬ keeps env kv.1 → kv.1 ∉ dictKeys r.map := by
  induction l with
  | nil => intro m r _ _ kv hkv; simp at hkv
  | cons hd rest ih =>
    intro m r hnd h kv hkv hnk
    obtain ⟨k, mid⟩ := hd
    simp only [cleanup_loop] at h
    cases hsp : splitHash1 k with
    | none => rw [hsp] at h; exact absurd h (by simp)
    | some pr =>
      rw [hsp] at h
      dsimp only at h
      cases hlk : env.lookup k with
      | raises =>
        rw [hlk] at h
        dsimp only at h
        cases hrec : cleanup_loop env rest m with
        | none => rw [hrec] at h; exact absurd h (by simp)
        | some r' =>
          rw [hrec] at h
          simp only [Option.some.injEq] at h
          rcases List.mem_cons.mp hkv with hkv | hkv
          · -- the head key has `keeps` (lookup raised), contradiction
            exact absurd (by rw [hkv]; simp [keeps, hlk]) hnk
          · rw [← h]
            exact ih m r' hnd hrec kv hkv hnk
      | resp status state =>
        rw [hlk] at h
        dsimp only at h
        by_cases h200 : status = 200
        · rw [if_pos h200] at h
          by_cases hopen : state = some "open"
          · rw [if_pos hopen] at h
            rcases List.mem_cons.mp hkv with hkv | hkv
            · exact absurd (by rw [hkv]; simp [keeps, hlk, hopen]) hnk
            · exact ih m r hnd h kv hkv hnk
          · rw [if_neg hopen] at h
            cases hrec : cleanup_loop env rest (dictPop m k).2 with
            | none => rw [hrec] at h; exact absurd h (by simp)
            | some r' =>
              rw [hrec] at h
              simp only [Option.some.injEq] at h
              have hnd' : (dictKeys (dictPop m k).2).Nodup :=
                dictKeys_pop_nodup m k hnd
              rcases List.mem_cons.mp hkv with hkv | hkv
              · -- the head key was popped: absent from the new live map,
                -- hence from the (sublist) final map
                rw [← h]
                intro hmem
                have hsub : (dictKeys r'.map).Sublist (dictKeys (dictPop m k).2) :=
                  (cleanup_loop_sublist env rest _ r' hrec).map Prod.fst
                have : kv.1 ∈ dictKeys (dictPop m k).2 := hsub.subset hmem
                rw [hkv] at this
                exact not_mem_keys_dictPop m k hnd this
              · rw [← h]
                exact ih _ r' hnd' hrec kv hkv hnk
        · rw [if_neg h200] at h
          cases hrec : cleanup_loop env rest m with
          | none => rw [hrec] at h; exact absurd h (by simp)
          | some r' =>
            rw [hrec] at h
            simp only [Option.some.injEq] at h
            rcases List.mem_cons.mp hkv with hkv | hkv
            · exact absurd (by rw [hkv]; simp [keeps, hlk, h200]) hnk
            · rw [← h]
              exact ih m r' hnd hrec kv hkv hnk

theorem cleanup_loop_keeps (env : CleanupEnv) :
    ∀ (l : List (String × Int)) (m : PrMap),
      (∀ kv ∈ l, splitHash1 kv.1 ≠ none ∧ keeps env kv.1) →
      ∃ t, cleanup_loop env l m = some ⟨m, t, 0⟩ ∧
        ∀ k mid ok, CAct.delCall k mid ok ∉ t := by
  intro l
  induction l with
  | nil => intro m _; exact ⟨[], rfl, by simp⟩
  | cons hd rest ih =>
    intro m hall
    obtain ⟨k, mid⟩ := hd
    obtain ⟨hhash, hkeep⟩ := hall (k, mid) (List.mem_cons_self _ _)
    obtain ⟨pr, hpr⟩ := Option.ne_none_iff_exists'.mp hhash
    obtain ⟨t, ht, hno⟩ := ih m (fun kv hkv => hall kv (List.mem_cons_of_mem _ hkv))
    simp only [cleanup_loop, hpr]
    cases hlk : env.lookup k with
    | raises =>
      dsimp only
      exact ⟨.errLog k :: t, by rw [ht], by intro a b c; simp [hno a b c]⟩
    | resp status state =>
      dsimp only
      simp only [keeps, hlk] at hkeep
      by_cases h200 : status = 200
      · have hopen : state = some "open" := hkeep.resolve_left (by simpa using h200)
        rw [if_pos h200, if_pos hopen]
        exact ⟨t, ht, hno⟩
      · rw [if_neg h200]
        exact ⟨.fetchWarn k status :: t, by rw [ht], by intro a b c; simp [hno a b c]⟩

/-- **C4**: the Cleanup Job is idempotent: a second sweep over the map
produced by a first successful sweep (against the same GitHub/Discord
environment) returns the same map, removes no entries, attempts no
message deletion (`delCall`-free trace) and reports `cleaned = 0`. -/
theorem cleanup_idempotent (env : CleanupEnv) (m : PrMap) (r1 : CleanupOut)
    (hnd : (dictKeys m).Nodup)
    (h1 : cleanup_pr_messages env m = some r1) :
    ∃ t2, cleanup_pr_messages env r1.map = some ⟨r1.map, t2, 0⟩ ∧
      ∀ k mid ok, CAct.delCall k mid ok ∉ t2 := by
  by_cases hm : m = []
  · rw [cleanup_pr_messages, if_pos hm, Option.some.injEq] at h1
    rw [← h1]
    exact ⟨[], by rw [cleanup_pr_messages, if_pos hm], by simp⟩
  · rw [cleanup_pr_messages, if_neg hm] at h1
    cases hloop : cleanup_loop env m m with
    | none => rw [hloop] at h1; exact absurd h1 (by simp)
    | some r =>
      rw [hloop] at h1
      simp only [Option.some.injEq] at h1
      have hmap : r1.map = r.map := by rw [← h1]
      have hall : ∀ kv ∈ r1.map, splitHash1 kv.1 ≠ none ∧ keeps env kv.1 := by
        intro kv hkv
        rw [hmap] at hkv
        have hmem : kv ∈ m := (cleanup_loop_sublist env m m r hloop).subset hkv
        refine ⟨cleanup_loop_hash env m m r hloop kv hmem, ?_⟩
        by_contra hnk
        exact cleanup_loop_removes env m m r hnd hloop kv hmem hnk
          (List.mem_map_of_mem Prod.fst hkv)
      obtain ⟨t, ht, hno⟩ := cleanup_loop_keeps env r1.map r1.map hall
      by_cases hempty : r1.map = []
      · exact ⟨[], by rw [cleanup_pr_messages, if_pos hempty, hempty], by simp⟩
      · refine ⟨t ++ [CAct.save r1.map], ?_, ?_⟩
        · rw [cleanup_pr_messages, if_neg hempty, ht]
        · intro a b c
          simp [hno a b c]

/-- Witness for `cleanup_idempotent`: one tracked PR reported closed is
swept on the first run; the second run is a no-op. -/
theorem cleanup_idempotent_witness :
    (dictKeys [("acme/widgets#7", (100 : Int))]).Nodup ∧
    cleanup_pr_messages
      ⟨fun _ => .resp 200 (some "closed"), fun _ _ => true⟩
      [("acme/widgets#7", (100 : Int))] =
      some ⟨[], [CAct.delCall "acme/widgets#7" 100 true, CAct.save []], 1⟩ ∧
    ∃ t2, cleanup_pr_messages
        ⟨fun _ => .resp 200 (some "closed"), fun _ _ => true⟩
        (CleanupOut.mk [] [CAct.delCall "acme/widgets#7" 100 true, CAct.save []] 1).map =
        some ⟨(CleanupOut.mk [] [CAct.delCall "acme/widgets#7" 100 true, CAct.save []] 1).map, t2, 0⟩ ∧
      ∀ k mid ok, CAct.delCall k mid ok ∉ t2 := by
  refine ⟨by simp [dictKeys], by decide, ?_⟩
  exact cleanup_idempotent ⟨fun _ => .resp 200 (some "closed"), fun _ _ => true⟩
    [("acme/widgets#7", (100 : Int))]
    ⟨[], [CAct.delCall "acme/widgets#7" 100 true, CAct.save []], 1⟩
    (by simp [dictKeys]) (by decide)

/-- **C5**: with two tracked keys where the first GitHub lookup returns
HTTP 500 and the second returns a closed PR, the sweep logs a warning
for the first key and keeps it, deletes and removes only the second
key, and saves the updated map exactly once, at the end. -/
theorem cleanup_isolated_failure
    (env : CleanupEnv) (k1 k2 : String) (v1 v2 : Int) (st1 : Option String)
    (hk : k1 ≠ k2)
    (hs1 : splitHash1 k1 ≠ none) (hs2 : splitHash1 k2 ≠ none)
    (hl1 : env.lookup k1 = .resp 500 st1)
    (hl2 : env.lookup k2 = .resp 200 (some "closed"))
    (hd2 : env.delete k2 v2 = true) :
    cleanup_pr_messages env [(k1, v1), (k2, v2)] =
      some ⟨[(k1, v1)],
        [CAct.fetchWarn k1 500, CAct.delCall k2 v2 true, CAct.save [(k1, v1)]], 1⟩ := by
  obtain ⟨p1, hp1⟩ := Option.ne_none_iff_exists'.mp hs1
  obtain ⟨p2, hp2⟩ := Option.ne_none_iff_exists'.mp hs2
  have hne : k1 ≠ k2 := hk
  simp [cleanup_pr_messages, cleanup_loop, hp1, hp2, hl1, hl2, hd2, dictPop, hne]

/-- Witness for `cleanup_isolated_failure` with keys `"a/b#1"`,
`"a/b#2"`. -/
theorem cleanup_isolated_failure_witness :
    ("a/b#1" : String) ≠ "a/b#2" ∧
    splitHash1 "a/b#1" ≠ none ∧ splitHash1 "a/b#2" ≠ none ∧
    (CleanupEnv.mk (fun k => if k = "a/b#1" then .resp 500 none else .resp 200 (some "closed"))
        (fun _ _ => true)).lookup "a/b#1" = .resp 500 none ∧
    (CleanupEnv.mk (fun k => if k = "a/b#1" then .resp 500 none else .resp 200 (some "closed"))
        (fun _ _ => true)).lookup "a/b#2" = .resp 200 (some "closed") ∧
    cleanup_pr_messages
      ⟨fun k => if k = "a/b#1" then .resp 500 none else .resp 200 (some "closed"),
        fun _ _ => true⟩
      [("a/b#1", (5 : Int)), ("a/b#2", (6 : Int))] =
      some ⟨[("a/b#1", (5 : Int))],
        [CAct.fetchWarn "a/b#1" 500, CAct.delCall "a/b#2" 6 true,
          CAct.save [("a/b#1", (5 : Int))]], 1⟩ := by
  refine ⟨by decide, by decide, by decide, by decide, by decide, ?_⟩
  exact cleanup_isolated_failure
    ⟨fun k => if k = "a/b#1" then .resp 500 none else .resp 200 (some "closed"),
      fun _ _ => true⟩
    "a/b#1" "a/b#2" 5 6 none (by decide) (by decide) (by decide)
    (by decide) (by decide) (by decide)

/-! ## Map Store persistence (pr_map.py, stats_map.py)

The persisted file is modelled at the JSON-value level: it is either
missing, has unparseable contents (`json.load` raises), or parses to a
JSON value.  `json.dump`/`json.load` are exact inverses on the values
these modules write, so the textual layer is abstracted away. -/

inductive Json
  | null
  | bool (b : Bool)
  | num (n : Int)
  | str (s : String)
  | arr (xs : List Json)
  | obj (kvs : List (String × Json))

inductive MapFile
  | missing
  | corrupt
  | valid (j : Json)

/-- `pr_map.load_pr_map`: `{}` when the file does not exist or
`json.load` raises (`except Exception: return {}`), else the parsed
value, returned unchecked.  Total: it never raises. -/
def load_pr_map : MapFile → Json
  | .missing => .obj []
  | .corrupt => .obj []
  | .valid j => j

/-- `json.dump(data, f)` on a `str → int` dict. -/
def json_of_pr_map (m : PrMap) : Json :=
  .obj (m.map fun kv => (kv.1, .num kv.2))

/-- `pr_map.save_pr_map`: `open("w")` truncates, then `json.dump`
writes the whole dict — a full overwrite ignoring the previous file
state. -/
def save_pr_map (data : PrMap) (_f : MapFile) : MapFile :=
  .valid (json_of_pr_map data)

def int_of_json : Json → Option Int
  | .num n => some n
  | _ => none

def pr_map_of_entries : List (String × Json) → Option PrMap
  | [] => some []
  | (k, j) :: rest =>
    match int_of_json j, pr_map_of_entries rest with
    | some v, some m => some ((k, v) :: m)
    | _, _ => none

/-- Reading a parsed JSON value back as the `str → int` dict it came
from. -/
def pr_map_of_json : Json → Option PrMap
  | .obj kvs => pr_map_of_entries kvs
  | _ => none

/-- The stats message map: `StatKey → list of message ids`; values are
kept as parsed JSON elements, as `load_stats_map` does not validate
list elements. -/
abbrev StatsMap := List (String × List Json)

/-- `stats_map.load_stats_map`: `{}` on `FileNotFoundError` or
`JSONDecodeError`; a parsed non-dict also yields `{}`; dict values that
are not lists are normalised to `[]`. -/
def load_stats_map : MapFile → StatsMap
  | .missing => []
  | .corrupt => []
  | .valid j =>
    match j with
    | .obj kvs =>
      kvs.map fun kv => (kv.1, match kv.2 with | .arr xs => xs | _ => [])
    | _ => []

def json_of_stats_map (m : StatsMap) : Json :=
  .obj (m.map fun kv => (kv.1, .arr kv.2))

/-- `stats_map.save_stats_map`: full overwrite, like `save_pr_map`. -/
def save_stats_map (m : StatsMap) (_f : MapFile) : MapFile :=
  .valid (json_of_stats_map m)

/-- **C6**: Map Store `load` is total — a missing or corrupt backing
file yields the empty map for both the PR map and the stats map (no
exception escapes: the embedding is a total function) — and `save` is
a full overwrite: its result is exactly the serialised given map,
independent of the previous file state (no append/merge). -/
theorem map_store_load_total_save_overwrite :
    load_pr_map .missing = .obj [] ∧ load_pr_map .corrupt = .obj [] ∧
    load_stats_map .missing = [] ∧ load_stats_map .corrupt = [] ∧
    (∀ (m : PrMap) (f f' : MapFile),
      save_pr_map m f = .valid (json_of_pr_map m) ∧ save_pr_map m f = save_pr_map m f') ∧
    (∀ (s : StatsMap) (f f' : MapFile),
      save_stats_map s f = .valid (json_of_stats_map s) ∧
        save_stats_map s f = save_stats_map s f') :=
  ⟨rfl, rfl, rfl, rfl, fun _ _ _ => ⟨rfl, rfl⟩, fun _ _ _ => ⟨rfl, rfl⟩⟩

theorem pr_map_entries_round (M : PrMap) :
    pr_map_of_entries (M.map fun kv => (kv.1, Json.num kv.2)) = some M := by
  induction M with
  | nil => rfl
  | cons hd tl ih => simp [pr_map_of_entries, int_of_json, ih]

theorem stats_map_round (S : StatsMap) :
    load_stats_map (.valid (json_of_stats_map S)) = S := by
  induction S with
  | nil => rfl
  | cons hd tl ih =>
    simp only [json_of_stats_map, load_stats_map, List.map_cons] at ih ⊢
    simp [ih]

/-- **C7**: `save` / `load` round-trip: for every map accepted by the
Map Store API, loading what `save` wrote reproduces the map exactly,
and saving the reloaded map writes the same content as saving the
original (`save(load(save(M))) = save(M)`), for both the PR map and
the stats map. -/
theorem map_store_round_trip :
    (∀ (M : PrMap) (f f' : MapFile),
      pr_map_of_json (load_pr_map (save_pr_map M f)) = some M ∧
      save_pr_map ((pr_map_of_json (load_pr_map (save_pr_map M f))).getD []) f'
        = save_pr_map M f) ∧
    (∀ (S : StatsMap) (g g' : MapFile),
      load_stats_map (save_stats_map S g) = S ∧
      save_stats_map (load_stats_map (save_stats_map S g)) g' = save_stats_map S g) := by
  constructor
  · intro M f f'
    have h : pr_map_of_json (load_pr_map (save_pr_map M f)) = some M := by
      show pr_map_of_json (json_of_pr_map M) = some M
      simpa [pr_map_of_json, json_of_pr_map] using pr_map_entries_round M
    exact ⟨h, by rw [h]; rfl⟩
  · intro S g g'
    have h : load_stats_map (save_stats_map S g) = S := stats_map_round S
    exact ⟨h, by rw [h]; rfl⟩

/-! ## Pagination counting (github_utils._get_paginated_count)

`re.search(r"page=(\d+)>; rel=\"last\"", link)` is embedded as a
leftmost scan for the literal `page=`, a maximal non-empty digit run,
then the literal `>; rel="last"` (the greedy `\d+` backtracks only to
fail, since a shorter digit run is followed by a digit, not `>`). -/

def digitsSplit : List Char → List Char × List Char
  | [] => ([], [])
  | c :: rest =>
    if c.isDigit then
      let r := digitsSplit rest
      (c :: r.1, r.2)
    else ([], c :: rest)

def natOfDigits (ds : List Char) : Nat :=
  ds.foldl (fun a c => a * 10 + (c.toNat - 48)) 0

def matchPageLastAt (cs : List Char) : Option Nat :=
  if "page=".data.isPrefixOf cs then
    let rest := cs.drop 5
    let ds := (digitsSplit rest).1
    if ds ≠ [] ∧ (">; rel=\"last\"").data.isPrefixOf (digitsSplit rest).2 then
      some (natOfDigits ds)
    else none
  else none

def reSearchPageLast : List Char → Option Nat
  | [] => none
  | c :: rest =>
    match matchPageLastAt (c :: rest) with
    | some n => some n
    | none => reSearchPageLast rest

/-- A GitHub API page response: HTTP status, optional `Link` header,
and the JSON array body. -/
structure HttpResponse where
  status : Nat
  link : Option String
  body : List Json

/-- `github_utils._get_paginated_count`: 0 on a non-200 response; the
last page number from the `Link` header when the regex matches; else
`len(data)`. -/
def _get_paginated_count (r : HttpResponse) : Nat :=
  if r.status ≠ 200 then 0
  else
    match r.link with
    | some l =>
      match reSearchPageLast l.data with
      | some n => n
      | none => r.body.length
    | none => r.body.length

/-- **C9**: on a successful response with no `Link` header the computed
count is exactly the number of items on the page — 1 for a one-item
page, 0 for an empty page — and every computed count is a non-negative
integer (the result type is `Nat`, and every branch — 0, a parsed page
number, a length — is non-negative). -/
theorem paginated_count_no_link (r : HttpResponse)
    (h200 : r.status = 200) (hlink : r.link = none) :
    _get_paginated_count r = r.body.length ∧
    (r.body.length = 1 → _get_paginated_count r = 1) ∧
    (r.body = [] → _get_paginated_count r = 0) ∧
    0 ≤ _get_paginated_count r := by
  have he : _get_paginated_count r = r.body.length := by
    simp [_get_paginated_count, h200, hlink]
  exact ⟨he, fun h1 => by rw [he, h1], fun h0 => by rw [he, h0]; rfl,
    Nat.zero_le _⟩

/-- Witness for `paginated_count_no_link`: a one-item page and an empty
page, both without a `Link` header. -/
theorem paginated_count_no_link_witness :
    (HttpResponse.mk 200 none [Json.null]).status = 200 ∧
    (HttpResponse.mk 200 none [Json.null]).link = none ∧
    _get_paginated_count (HttpResponse.mk 200 none [Json.null]) = 1 ∧
    _get_paginated_count (HttpResponse.mk 200 none []) = 0 := by
  have h1 := paginated_count_no_link (HttpResponse.mk 200 none [Json.null]) rfl rfl
  have h2 := paginated_count_no_link (HttpResponse.mk 200 none []) rfl rfl
  exact ⟨rfl, rfl, h1.2.1 rfl, h2.2.2.1 rfl⟩

/-! ## Webhook signature verification (github_utils.verify_github_signature)

`hmac.new(secret.encode("utf-8"), body, hashlib.sha256).hexdigest()` is
embedded by a full executable HMAC-SHA256 (FIPS 180-4 / RFC 2104) over
byte lists (each `Nat < 256`); `hmac.compare_digest` is a constant-time
string comparison, functionally plain equality. -/

def w32 (x : Nat) : Nat := x % 4294967296

def rotr (n x : Nat) : Nat := w32 ((x >>> n) ||| (x <<< (32 - n)))

def shaCh (x y z : Nat) : Nat := (x &&& y) ^^^ ((x ^^^ 4294967295) &&& z)

def shaMaj (x y z : Nat) : Nat := (x &&& y) ^^^ (x &&& z) ^^^ (y &&& z)

def bigSigma0 (x : Nat) : Nat := rotr 2 x ^^^ rotr 13 x ^^^ rotr 22 x

def bigSigma1 (x : Nat) : Nat := rotr 6 x ^^^ rotr 11 x ^^^ rotr 25 x

def smallSigma0 (x : Nat) : Nat := rotr 7 x ^^^ rotr 18 x ^^^ (x >>> 3)

def smallSigma1 (x : Nat) : Nat := rotr 17 x ^^^ rotr 19 x ^^^ (x >>> 10)

/-- The 64 SHA-256 round constants. -/
def shaK : List Nat :=
  [1116352408, 1899447441, 3049323471, 3921009573, 961987163,
   1508970993, 2453635748, 2870763221, 3624381080, 310598401,
   607225278, 1426881987, 1925078388, 2162078206, 2614888103,
   3248222580, 3835390401, 4022224774, 264347078, 604807628,
   770255983, 1249150122, 1555081692, 1996064986, 2554220882,
   2821834349, 2952996808, 3210313671, 3336571891, 3584528711,
   113926993, 338241895, 666307205, 773529912, 1294757372,
   1396182291, 1695183700, 1986661051, 2177026350, 2456956037,
   2730485921, 2820302411, 3259730800, 3345764771, 3516065817,
   3600352804, 4094571909, 275423344, 430227734, 506948616,
   659060556, 883997877, 958139571, 1322822218, 1537002063,
   1747873779, 1955562222, 2024104815, 2227730452, 2361852424,
   2428436474, 2756734187, 3204031479, 3329325298]

/-- The SHA-256 initial hash value. -/
def shaH0 : List Nat :=
  [1779033703, 3144134277, 1013904242,
   2773480762, 1359893119, 2600822924,
   528734635, 1541459225]

def be64 (n : Nat) : List Nat :=
  [(n >>> 56) % 256, (n >>> 48) % 256, (n >>> 40) % 256, (n >>> 32) % 256,
   (n >>> 24) % 256, (n >>> 16) % 256, (n >>> 8) % 256, n % 256]

def be32 (n : Nat) : List Nat :=
  [(n >>> 24) % 256, (n >>> 16) % 256, (n >>> 8) % 256, n % 256]

/-- Append `0x80`, zero padding to 56 mod 64, and the 64-bit big-endian
bit length. -/
def padMessage (msg : List Nat) : List Nat :=
  msg ++ 0x80 :: List.replicate ((119 - msg.length % 64) % 64) 0
    ++ be64 (msg.length * 8)

def bytesToWords : List Nat → List Nat
  | b0 :: b1 :: b2 :: b3 :: rest =>
    (((b0 * 256 + b1) * 256 + b2) * 256 + b3) :: bytesToWords rest
  | _ => []

/-- Split the padded word stream into 16-word blocks (the input length
is always a multiple of 16 after padding). -/
def chunk16 : List Nat → List (List Nat)
  | w0 :: w1 :: w2 :: w3 :: w4 :: w5 :: w6 :: w7 ::
    w8 :: w9 :: w10 :: w11 :: w12 :: w13 :: w14 :: w15 :: rest =>
    [w0, w1, w2, w3, w4, w5, w6, w7, w8, w9, w10, w11, w12, w13, w14, w15]
      :: chunk16 rest
  | [] => []
  | rest => [rest]

/-- Extend the 16 block words to the 64-entry message schedule. -/
def schedExt : Nat → List Nat → List Nat
  | 0, w => w
  | n + 1, w =>
    let t := w.length
    let next := w32 (smallSigma1 (w.getD (t - 2) 0) + w.getD (t - 7) 0 +
      smallSigma0 (w.getD (t - 15) 0) + w.getD (t - 16) 0)
    schedExt n (w ++ [next])

def compressStep (st : List Nat) (kw : Nat × Nat) : List Nat :=
  match st with
  | [a, b, c, d, e, f, g, h] =>
    let t1 := w32 (h + bigSigma1 e + shaCh e f g + kw.1 + kw.2)
    let t2 := w32 (bigSigma0 a + shaMaj a b c)
    [w32 (t1 + t2), a, b, c, w32 (d + t1), e, f, g]
  | other => other

def compressBlock (h : List Nat) (block : List Nat) : List Nat :=
  let w := schedExt 48 block
  let st := (shaK.zip w).foldl compressStep h
  (h.zip st).map fun p => w32 (p.1 + p.2)

/-- SHA-256 of a byte list, as a 32-byte list. -/
def sha256 (msg : List Nat) : List Nat :=
  let blocks := chunk16 (bytesToWords (padMessage msg))
  List.flatten ((blocks.foldl compressBlock shaH0).map be32)

/-- HMAC-SHA256 (RFC 2104) with a 64-byte block size. -/
def hmacSha256 (key msg : List Nat) : List Nat :=
  let k0 := if 64 < key.length then sha256 key else key
  let kpad := k0 ++ List.replicate (64 - k0.length) 0
  let ipad := kpad.map fun b => b ^^^ 0x36
  let opad := kpad.map fun b => b ^^^ 0x5c
  sha256 (opad ++ sha256 (ipad ++ msg))

def hexChar (n : Nat) : Char :=
  if n < 10 then Char.ofNat (48 + n) else Char.ofNat (87 + n)

/-- Lowercase hex rendering, as `hexdigest()` produces. -/
def hexOfBytes (bs : List Nat) : String :=
  String.mk (List.flatten (bs.map fun b => [hexChar (b / 16), hexChar (b % 16)]))

def utf8Char (c : Char) : List Nat :=
  let n := c.toNat
  if n < 128 then [n]
  else if n < 2048 then [192 + n / 64, 128 + n % 64]
  else if n < 65536 then [224 + n / 4096, 128 + (n / 64) % 64, 128 + n % 64]
  else [240 + n / 262144, 128 + (n / 4096) % 64, 128 + (n / 64) % 64, 128 + n % 64]

/-- `str.encode("utf-8")`. -/
def utf8Bytes (s : String) : List Nat :=
  List.flatten (s.data.map utf8Char)

/-- `github_utils.verify_github_signature`: skip when no secret is
configured (`if not settings.github_webhook_secret` — `None` or the
empty string), reject 401 when the `X-Hub-Signature-256` header is
missing, else compare the header against
`"sha256=" + hex(HMAC-SHA256(secret, body))` and reject 401 on
mismatch. -/
def verify_github_signature (secret : Option String) (header : Option String)
    (body : List Nat) : Except Nat Unit :=
  match secret with
  | none => .ok ()
  | some s =>
    if s = "" then .ok ()
    else
      match header with
      | none => .error 401
      | some sig =>
        let expected := "sha256=" ++ hexOfBytes (hmacSha256 (utf8Bytes s) body)
        if sig = expected then .ok () else .error 401

/-- **C8**: with a configured secret, a missing signature header is
rejected with 401, and a supplied header is accepted exactly when it
equals `"sha256=" + hex(HMAC-SHA256(secret, received body))`; in
particular a header computed over a different original body whose MAC
differs from the received body's is rejected with 401 (tampering);
with no secret configured every body is accepted. -/
theorem webhook_signature_verification
    (s : String) (hs : s ≠ "") (body tampered : List Nat) (sig : String)
    (header : Option String)
    (hmacNe : "sha256=" ++ hexOfBytes (hmacSha256 (utf8Bytes s) body) ≠
      "sha256=" ++ hexOfBytes (hmacSha256 (utf8Bytes s) tampered)) :
    verify_github_signature none header body = .ok () ∧
    verify_github_signature (some s) none body = .error 401 ∧
    (verify_github_signature (some s) (some sig) body = .ok () ↔
      sig = "sha256=" ++ hexOfBytes (hmacSha256 (utf8Bytes s) body)) ∧
    verify_github_signature (some s)
      (some ("sha256=" ++ hexOfBytes (hmacSha256 (utf8Bytes s) body))) tampered
      = .error 401 := by
  refine ⟨rfl, by simp [verify_github_signature, hs], ?_, ?_⟩
  · constructor
    · intro h
      by_contra hne
      simp [verify_github_signature, hs, hne] at h
    · intro h
      simp [verify_github_signature, hs, h]
  · simp [verify_github_signature, hs, hmacNe]

set_option maxRecDepth 100000 in
/-- Witness for `webhook_signature_verification` with secret `"k"`,
body `[104, 105]` (`b"hi"`) and tampered body `[104, 106]`; the two
MACs are computed concretely and differ. -/
theorem webhook_signature_verification_witness :
    ("k" : String) ≠ "" ∧
    ("sha256=" ++ hexOfBytes (hmacSha256 (utf8Bytes "k") [104, 105]) ≠
      "sha256=" ++ hexOfBytes (hmacSha256 (utf8Bytes "k") [104, 106])) ∧
    verify_github_signature (some "k") none [104, 105] = .error 401 ∧
    verify_github_signature (some "k")
      (some ("sha256=" ++ hexOfBytes (hmacSha256 (utf8Bytes "k") [104, 105])))
      [104, 105] = .ok () ∧
    verify_github_signature (some "k")
      (some ("sha256=" ++ hexOfBytes (hmacSha256 (utf8Bytes "k") [104, 105])))
      [104, 106] = .error 401 := by
  have h := webhook_signature_verification "k" (by decide) [104, 105] [104, 106]
    ("sha256=" ++ hexOfBytes (hmacSha256 (utf8Bytes "k") [104, 105])) none
    (by decide)
  exact ⟨by decide, by decide, h.2.1, (h.2.2.1).mpr rfl, h.2.2.2⟩

/-- Witness for `invalid_payload_returns_false`: an `opened` payload
with no repository name. -/
theorem invalid_payload_returns_false_witness :
    ((Payload.mk "opened" false none (some 7)).repo = none ∨
      (Payload.mk "opened" false none (some 7)).number = none) ∧
    HandlerV314.handle_pull_request_event_with_retry ⟨1, 2⟩ ⟨.ok 100, true⟩
      (Payload.mk "opened" false none (some 7)) [("x#1", 5)] =
      (false, [("x#1", 5)], []) :=
  ⟨Or.inl rfl,
    invalid_payload_returns_false ⟨1, 2⟩ ⟨.ok 100, true⟩
      (Payload.mk "opened" false none (some 7)) [("x#1", 5)] (Or.inl rfl)⟩

end DiscordGithub
